import Mathlib

/-!
Verification of the concurrent observability-and-execution core of the
terraform-py repository: the process runner (`utils/utils.py`), the logger's
task tracker, elapsed-time formatter and log formatter (`utils/logger.py`).
Python functions are shallowly embedded as Lean definitions; stateful code is
modelled by explicit state passing, and the blocking behaviour of the stream
drain loop by a small-step transition relation.
-/

namespace TerraformPy

/-! ### utils.py: `clean_command`

Source (utils/utils.py, lines 21-22):
`return list(filter(lambda x: x is not None and len(x) > 0, cmd))`.
An argv element is `Option String`: `none` models a Python `None`
(an absent element). -/

def clean_command (cmd : List (Option String)) : List String :=
  cmd.filterMap (fun x =>
    match x with
    | none => none
    | some s => if s.length > 0 then some s else none)

/-! ### utils.py: `CommandResult`

Source (utils/utils.py, lines 32-46).  The constructor assigns
`self.callback_output = callback_output,` — the trailing comma builds a
one-element Python tuple, modelled by `Tuple1`. -/

structure Tuple1 (α : Type _) where
  val : α
deriving DecidableEq

structure CommandResult (β γ : Type _) where
  success : Bool
  code : ℤ
  stdout : String
  stderr : String
  callback_output : Tuple1 (Option γ)
  line_callback_output : List (Option β)

/-- Mirror of `CommandResult.__init__` (utils/utils.py, lines 40-46): every
field is stored as passed, except `callback_output`, which the trailing comma
on line 45 wraps into a one-element tuple. -/
def CommandResult.init (success : Bool) (code : ℤ) (stdout stderr : String)
    (callback_output : Option γ) (line_callback_output : List (Option β)) :
    CommandResult β γ :=
  { success := success
    code := code
    stdout := stdout
    stderr := stderr
    callback_output := Tuple1.mk callback_output
    line_callback_output := line_callback_output }

/-! ### utils.py: the drain loop of `run_command`

Source (utils/utils.py, lines 69-88).  Each iteration reads one line from
stdout and one from stderr (`readline` yields `b""` exactly at end of stream,
modelled by an exhausted list), breaks when both reads are empty, appends the
nonempty reads to the accumulated texts, and, when a `line_callback` is given,
appends `line_callback(line, error_line)` to `line_callback_result` — one call
per iteration, receiving both reads of that iteration. -/

def pushCb (f : Option (String → String → Option β)) (line eline : String)
    (rest : List (Option β)) : List (Option β) :=
  match f with
  | none => rest
  | some g => g line eline :: rest

/-- Iterations of the loop once stdout has reached end of stream: only
`proc.stderr.readline()` still yields data. -/
def drainErrOnly (f : Option (String → String → Option β)) :
    List String → String × String × List (Option β)
  | [] => ("", "", [])
  | e :: es =>
    if e = "" then ("", "", [])
    else
      let rest := drainErrOnly f es
      (rest.1, e ++ rest.2.1, pushCb f "" e rest.2.2)

/-- The `while True` loop of `run_command` on the two line streams of the
final stage, for executions in which the child's output is delivered (the
blocking behaviour is modelled separately by `PipeStep`). -/
def drainLoop (f : Option (String → String → Option β)) :
    List String → List String → String × String × List (Option β)
  | [], errs => drainErrOnly f errs
  | o :: os, errs =>
    let e := errs.headD ""
    if o = "" ∧ e = "" then ("", "", [])
    else
      let rest := drainLoop f os errs.tail
      (o ++ rest.1, e ++ rest.2.1, pushCb f o e rest.2.2)

/-- Mirror of `run_command` (utils/utils.py, lines 49-94) after the spawn:
drain both streams, run the completion callback on the full texts, and build
the result via `CommandResult.init`; entries of `line_callback_result` that
are `None` are filtered out on line 94. -/
def run_command (returncode : ℤ) (outs errs : List String)
    (line_callback : Option (String → String → Option β))
    (callback : Option (String → String → γ)) : CommandResult β γ :=
  let res := drainLoop line_callback outs errs
  let stdout := res.1
  let stderr := res.2.1
  let line_callback_result := res.2.2
  let res_callback : Option γ :=
    match callback with
    | none => none
    | some cb => some (cb stdout stderr)
  CommandResult.init (returncode == 0) returncode stdout stderr res_callback
    (line_callback_result.filter (fun x => x.isSome))

/-- Concatenation of the lines a stream delivered, i.e. the full stream text
(`stdout += line` / `stderr += error_line` accumulated over the loop). -/
def concatLines : List String → String
  | [] => ""
  | l :: ls => l ++ concatLines ls

/-! ### logger.py: `format_elapsed_time`

Source (utils/logger.py, lines 108-134; identical in both repository
variants).  Times are modelled in integer milliseconds, which represents
every input of the claims exactly: an epoch time of `t` seconds is the
natural number `1000 * t`.  On this domain Python's `//` and `%` are `Nat`
division and modulus, `int()` of the non-negative remainder is `Nat`
division by 1000, and `int((e - int(e)) * 1000)` is the remainder mod 1000. -/

def stripChar (c : Char) : Bool := c == ',' || c == ' '

/-- Python's `str.rstrip(", ")`: drop trailing characters belonging to the
set containing the comma and the space. -/
def rstripCommaSpace (s : String) : String :=
  String.mk ((s.data.reverse.dropWhile stripChar).reverse)

def format_elapsed_time (start_time end_time : ℕ) : String :=
  let elapsed_time := end_time - start_time
  let hours := elapsed_time / 3600000
  let e1 := elapsed_time % 3600000
  let minutes := e1 / 60000
  let e2 := e1 % 60000
  let seconds := e2 / 1000
  let milliseconds := e2 % 1000
  let result := if hours > 0 then toString hours ++ "h, " else ""
  let result := result ++ (if minutes > 0 then toString minutes ++ "min, " else "")
  let result := result ++ (if seconds > 0 then toString seconds ++ "s, " else "")
  let result := result ++ (if milliseconds > 0 then toString milliseconds ++ "ms" else "")
  rstripCommaSpace result

/-- Spec-side reading of the elapsed-time contract: the list of the rendered
non-zero components, to be joined by `", "`. -/
def elapsedComponents (start_time end_time : ℕ) : List String :=
  let elapsed_time := end_time - start_time
  let hours := elapsed_time / 3600000
  let e1 := elapsed_time % 3600000
  let minutes := e1 / 60000
  let e2 := e1 % 60000
  let seconds := e2 / 1000
  let milliseconds := e2 % 1000
  (if hours > 0 then [toString hours ++ "h"] else []) ++
  (if minutes > 0 then [toString minutes ++ "min"] else []) ++
  (if seconds > 0 then [toString seconds ++ "s"] else []) ++
  (if milliseconds > 0 then [toString milliseconds ++ "ms"] else [])

/-- Spec-side joining of components by `", "` with no trailing separator. -/
def joinComps : List String → String
  | [] => ""
  | [x] => x
  | x :: y :: xs => x ++ ", " ++ joinComps (y :: xs)

/-! ### logger.py: the task tracker (`Logger.start` / `Logger.finish`)

Source: utils/logger.py, lines 454-499 (`terraformpy_nerdtronik` variant).
A task is the dictionary built in `start`; the tracker state is the pair of
the `_tasks` and `_end_tasks` lists plus the `_task_finished` event. -/

structure Task where
  id : String
  message : String
  start_time : ℕ
  result_message : String := ""
  /-- Source field name: `postfix` (renamed here). -/
  post_fix : String := ""
  success : Bool := true
deriving DecidableEq

structure LoggerState where
  tasks : List Task
  end_tasks : List Task
  task_finished : Bool
deriving DecidableEq

def initState : LoggerState := { tasks := [], end_tasks := [], task_finished := false }

/-- Model of `hashlib.md5((message + str(start_time)).encode()).hexdigest()`
(logger.py, lines 458-460): a deterministic content-derived id.  md5 is
replaced by an injective stand-in; equal `message + str(start_time)`
concatenations still collide, exactly as the real hash does. -/
def mkTaskId (message : String) (start_time : ℕ) : String :=
  message ++ toString start_time

/-- Mirror of `Logger.start` (logger.py, lines 454-476): build the task
dictionary and append it to `_tasks`; the returned id is the second
component. -/
def Logger.start (st : LoggerState) (messages : String) (now : ℕ) :
    LoggerState × String :=
  let task_id := mkTaskId messages now
  let task : Task := { id := task_id, message := messages, start_time := now }
  ({ st with tasks := st.tasks ++ [task] }, task_id)

/-- Mirror of `Logger.finish` (logger.py, lines 478-499): look the id up in
`_tasks`; when absent, return (no exception, no change); otherwise remove the
first match from `_tasks`, fill in outcome fields, append a copy to
`_end_tasks` and set the `_task_finished` event. -/
def Logger.finish (st : LoggerState) (task_id : String) (message : String)
    (success : Bool) : LoggerState :=
  let post_fix := if message.trim ≠ "" then " " ++ message else ""
  match st.tasks.filter (fun x => x.id == task_id) with
  | [] => st
  | task :: _ =>
    { tasks := st.tasks.erase task
      end_tasks := st.end_tasks ++
        [{ task with result_message := message, post_fix := post_fix,
                     success := success }]
      task_finished := true }

/-- A call into the task tracker. -/
inductive LogOp where
  | start (message : String) (now : ℕ)
  | finish (task_id message : String) (success : Bool)

def applyOp (st : LoggerState) : LogOp → LoggerState
  | LogOp.start m t => (Logger.start st m t).1
  | LogOp.finish id m s => Logger.finish st id m s

def runOps (ops : List LogOp) : LoggerState := ops.foldl applyOp initState

def activeIds (st : LoggerState) : List String := st.tasks.map (fun t => t.id)

def finishedIds (st : LoggerState) : List String := st.end_tasks.map (fun t => t.id)

/-- Along a call sequence, every `start` generates an id that is not already
present among the active or finished tasks (this holds whenever no two
`start` calls share both message and start time). -/
def FreshStarts : LoggerState → List LogOp → Prop
  | _, [] => True
  | st, op :: ops =>
    (match op with
     | LogOp.start m t => mkTaskId m t ∉ activeIds st ∧ mkTaskId m t ∉ finishedIds st
     | LogOp.finish _ _ _ => True) ∧ FreshStarts (applyOp st op) ops

/-- The tracker invariant: active ids are pairwise distinct and disjoint from
the finished ids. -/
def TrackInv (st : LoggerState) : Prop :=
  (activeIds st).Nodup ∧ ∀ id ∈ activeIds st, id ∉ finishedIds st

/-! ### logger.py: `LoggerFormatter.format`

Source: utils/logger.py lines 209-260 of the `terraform-py_nerdtronik`
variant, the one whose formatter implements the missing-field defaults
(`args.get('asctime', now)`, `args.get('env', 'default')`, `args` replaced by
the empty dictionary when absent or not a dictionary).  The logger always
constructs its formatters with `fmt=None`, so the custom-formatting path is
modelled.  ANSI constants are those of the `color` class (lines 18-65). -/

def color.END : String := "\x1b[0m"
def color.BOLD : String := "\x1b[1m"
def color.HIGHLIGHTED_GREEN : String := "\x1b[42m"
def color.HIGHLIGHTED_GREEN_LIGHT : String := "\x1b[102m"
def color.HIGHLIGHTED_RED : String := "\x1b[41m"
def color.HIGHLIGHTED_RED_LIGHT : String := "\x1b[101m"
def color.GREEN_DARK : String := "\x1b[32m"
def color.YELLOW_DARK : String := "\x1b[33m"
def color.BLUE_DARK : String := "\x1b[34m"
def color.RED : String := "\x1b[91m"
def color.GREEN : String := "\x1b[92m"
def color.PURPLE : String := "\x1b[95m"
def color.CYAN : String := "\x1b[96m"
def color.WHITE : String := "\x1b[97m"

/-- The `LOGGER_LEVEL_COLORS` dictionary (logger.py, lines 90-103). -/
def LOGGER_LEVEL_COLORS : List (String × String) :=
  [("TRACE", color.BOLD ++ color.PURPLE ++ "TRAC" ++ color.END),
   ("RUNNING", color.BOLD ++ color.PURPLE ++ "RUNN" ++ color.END),
   ("DEBUG", color.BOLD ++ color.CYAN ++ "DEBG" ++ color.END),
   ("INFO", color.BOLD ++ color.WHITE ++ "INFO" ++ color.END),
   ("DONE", color.BOLD ++ color.GREEN ++ "DONE" ++ color.END),
   ("SUCCESS", color.BOLD ++ color.HIGHLIGHTED_GREEN_LIGHT ++ "SUCC" ++ color.END),
   ("COMPLETED", color.BOLD ++ color.HIGHLIGHTED_GREEN ++ "COMP" ++ color.END),
   ("WARNING", color.BOLD ++ color.YELLOW_DARK ++ "WARN" ++ color.END),
   ("ERROR", color.BOLD ++ color.RED ++ "ERRR" ++ color.END),
   ("FAILED", color.BOLD ++ color.HIGHLIGHTED_RED ++ "FAIL" ++ color.END),
   ("CRITICAL", color.BOLD ++ color.HIGHLIGHTED_RED_LIGHT ++ "CRIT" ++ color.END),
   ("EXCEPTION", color.BOLD ++ color.HIGHLIGHTED_RED ++ "EXCP" ++ color.END)]

/-- `LOGGER_LEVEL_COLORS.get(record.levelname, record.levelname)`. -/
def levelColor (levelname : String) : String :=
  (LOGGER_LEVEL_COLORS.lookup levelname).getD levelname

/-- The optional keys of `record.args`; a missing key is `none`. -/
structure RecordArgs where
  asctime : Option String
  last_log : Option Bool
  started : Option Bool
  env : Option String
deriving DecidableEq

/-- `args = {}` — the substitute for a missing or non-dictionary `record.args`. -/
def emptyArgs : RecordArgs :=
  { asctime := none, last_log := none, started := none, env := none }

structure LogRecord where
  name : String
  levelname : String
  filename : String
  lineno : ℕ
  msg : String
  args : Option RecordArgs
deriving DecidableEq

/-- The visibility flags (`level`, `date`, `file`, `env`) and the color flag
of a `LoggerFormatter`. -/
structure FormatterFlags where
  show_level : Bool
  show_date : Bool
  show_file : Bool
  show_env : Bool
  colors : Bool
deriving DecidableEq

/-- Everything `format` accumulates into `message` before the final
`"| " + record.msg`: the continuation marker and the date/env/level/file
parts, in the colored or plain styling.  `now` models the
`datetime.datetime.now().strftime(...)` default for a missing `asctime`. -/
def formatBody (now : String) (cfg : FormatterFlags) (record : LogRecord) : String :=
  let args := record.args.getD emptyArgs
  let asctime := args.asctime.getD now
  let contMarker :=
    if (args.last_log.getD true) = false ∧ (args.started.getD false) = true
    then "\x1b[A\x1b[K" else ""
  let body :=
    if cfg.colors then
      (if cfg.show_date then color.BLUE_DARK ++ asctime ++ color.END ++ " " else "") ++
      (if cfg.show_env then color.PURPLE ++ "(" ++ args.env.getD "default" ++ ")" ++ color.END ++ " " else "") ++
      (if cfg.show_level then levelColor record.levelname ++ " " else "") ++
      (if cfg.show_file then
        color.GREEN_DARK ++ record.filename ++ color.YELLOW_DARK ++ ":" ++
        color.GREEN_DARK ++ toString record.lineno ++ color.END ++ " " else "")
    else
      (if cfg.show_date then asctime ++ " " else "") ++
      (if cfg.show_env then "(" ++ args.env.getD "default" ++ ") " else "") ++
      (if cfg.show_level then record.levelname ++ " " else "") ++
      (if cfg.show_file then record.filename ++ ":" ++ toString record.lineno ++ " " else "")
  contMarker ++ body

/-- Mirror of `LoggerFormatter.format` for `fmt=None`: the accumulated parts
followed by `"| " + record.msg`. -/
def LoggerFormatter.format (now : String) (cfg : FormatterFlags)
    (record : LogRecord) : String :=
  formatBody now cfg record ++ "| " ++ record.msg

/-! ### logger.py: the consumer thread on one queued record

Source: `Logger._process_log_queue` of the `terraformpy_nerdtronik` variant
(lines 298-329).  For a dequeued entry the consumer derives file and line
from the frame (the defaults `"unknown"` and `0` when the frame is absent),
builds the record, hands it to the sinks (`self.logger.handle(record)`), and
only then, when the queued level string is `"EXCEPTION"`, raises. -/

structure Frame where
  filename : String
  lineno : ℕ
deriving DecidableEq

structure QueuedEntry where
  level_str : String
  level_value : ℤ
  message : String
  frame : Option Frame
  now : String
deriving DecidableEq

/-- The record built by `self.logger.makeRecord(self.env, level_value,
filename, line, message, ({"asctime": now},), None)`; custom levels are
registered with `addLevelName`, so the record's level name is the queued
level string. -/
def mkRecordOfEntry (env : String) (entry : QueuedEntry) : LogRecord :=
  { name := env
    levelname := entry.level_str
    filename := match entry.frame with
      | some fr => fr.filename
      | none => "unknown"
    lineno := match entry.frame with
      | some fr => fr.lineno
      | none => 0
    msg := entry.message
    args := some { asctime := some entry.now, last_log := none,
                   started := none, env := none } }

/-- One consumer iteration on a dequeued entry: append the rendered line to
the sink, then raise exactly when the level string is `"EXCEPTION"`
(`raise Exception(message)` on line 325 follows `self.logger.handle` on
line 323).  `render` abstracts the configured formatter. -/
def consumeEntry (render : LogRecord → String) (env : String)
    (sink : List String) (entry : QueuedEntry) : List String × Option String :=
  let record := mkRecordOfEntry env entry
  let sink2 := sink ++ [render record]
  (sink2, if entry.level_str = "EXCEPTION" then some entry.message else none)

/-! ### utils.py: blocking behaviour of the drain loop

`run_command` drains the two streams with one sequential loop whose first
statement is `line = proc.stdout.readline()` (line 70).  That call blocks
until stdout has data or is closed; the child's stderr pipe is only read
after it returns.  The small-step relation below models an invocation on a
child that writes `total` bytes to stderr and nothing to stdout, with an OS
pipe buffer of `cap` bytes: the child can write while the buffer is not
full, exits once everything is written (closing both streams), and the
parent's `readline` on stdout returns only after that close. -/

structure PipeState where
  /-- stderr bytes the child has placed in the pipe (nothing drains them). -/
  written : ℕ
  /-- the child has written all its output and exited, closing its streams. -/
  childExited : Bool
  /-- the parent's `proc.stdout.readline()` on line 70 has returned. -/
  parentUnblocked : Bool
deriving DecidableEq

def initPipeState : PipeState :=
  { written := 0, childExited := false, parentUnblocked := false }

inductive PipeStep (total cap : ℕ) : PipeState → PipeState → Prop
  /-- The child writes one more stderr byte; the pipe must not be full. -/
  | writeErr (s : PipeState) : s.written < total → s.written < cap →
      PipeStep total cap s { s with written := s.written + 1 }
  /-- The child finishes: all `total` bytes written, streams close. -/
  | childExit (s : PipeState) : s.written = total →
      PipeStep total cap s { s with childExited := true }
  /-- `proc.stdout.readline()` returns: stdout never receives data, so only
  end-of-stream (after the child exits) unblocks it. -/
  | stdoutEof (s : PipeState) : s.childExited = true →
      PipeStep total cap s { s with parentUnblocked := true }

def PipeReachable (total cap : ℕ) (s : PipeState) : Prop :=
  Relation.ReflTransGen (PipeStep total cap) initPipeState s

/-! ## Theorems -/

/-- C1 (code_bug evidence): when the child's stderr output exceeds the pipe
capacity (`cap < total`) and nothing is written to stdout, every state the
drain loop of `run_command` can reach keeps the child blocked (it never
exits, so its streams never close) and keeps the parent inside its first
`proc.stdout.readline()` call; the loop therefore never terminates and the
stderr text is never delivered, contradicting the claim that such a run
completes with its full stderr in the result. -/
theorem claim_c1_stderr_only_deadlock (total cap : ℕ) (hc : cap < total) :
    ∀ s : PipeState, PipeReachable total cap s →
      s.childExited = false ∧ s.parentUnblocked = false ∧ s.written ≤ cap := by
  intro s h
  induction h with
  | refl => exact ⟨rfl, rfl, Nat.zero_le _⟩
  | tail hr hstep ih =>
    obtain ⟨hex, hun, hw⟩ := ih
    cases hstep with
    | writeErr hlt hcap => exact ⟨hex, hun, hcap⟩
    | childExit heq => omega
    | stdoutEof hex2 => rw [hex] at hex2; cases hex2

/-- Witness for C1: the concrete failing input, 100000 stderr bytes against
a 65536-byte pipe, instantiated at the initial state. -/
theorem claim_c1_witness :
    65536 < 100000 ∧
      (initPipeState.childExited = false ∧ initPipeState.parentUnblocked = false ∧
        initPipeState.written ≤ 65536) :=
  ⟨by decide,
    claim_c1_stderr_only_deadlock 100000 65536 (by decide) initPipeState
      Relation.ReflTransGen.refl⟩

/-- C9: processing a dequeued record first hands the rendered line to the
sinks — the sink extension holds for every level, including `EXCEPTION`, so
the line is emitted before any raise — and the consumer raises exactly when
the queued level string is `EXCEPTION`: no other level's processing raises. -/
theorem claim_c9_exception_renders_then_raises (render : LogRecord → String)
    (env : String) (sink : List String) (entry : QueuedEntry) :
    (consumeEntry render env sink entry).1 =
        sink ++ [render (mkRecordOfEntry env entry)] ∧
      ((consumeEntry render env sink entry).2 ≠ none ↔
        entry.level_str = "EXCEPTION") := by
  refine ⟨rfl, ?_⟩
  by_cases h : entry.level_str = "EXCEPTION" <;> simp [consumeEntry, h]

/-- C8: the formatter is a total function that always produces a text line
carrying the message; a missing `args` dictionary behaves as the empty one,
whose missing keys in turn behave as the documented defaults (`now` for the
timestamp, `"default"` for the environment tag, fresh-line continuation);
and a missing source frame is substituted by `"unknown"` line `0` when the
record is built — all of this for every combination of the four visibility
flags and the color flag. -/
theorem claim_c8_formatter_total (now : String) (cfg : FormatterFlags)
    (record : LogRecord) :
    LoggerFormatter.format now cfg record =
        formatBody now cfg record ++ "| " ++ record.msg ∧
      (record.args = none →
        LoggerFormatter.format now cfg record =
          LoggerFormatter.format now cfg { record with args := some emptyArgs }) ∧
      (record.args = some emptyArgs →
        LoggerFormatter.format now cfg record =
          LoggerFormatter.format now cfg
            { record with
              args := some (RecordArgs.mk (some now) (some true) (some false)
                (some "default")) }) ∧
      (∀ env entry, entry.frame = none →
        (mkRecordOfEntry env entry).filename = "unknown" ∧
          (mkRecordOfEntry env entry).lineno = 0) := by
  refine ⟨rfl, ?_, ?_, ?_⟩
  · intro h; simp [LoggerFormatter.format, formatBody, h]
  · intro h; simp [LoggerFormatter.format, formatBody, h, emptyArgs]
  · intro env entry h; simp [mkRecordOfEntry, h]

def recW : LogRecord :=
  { name := "default", levelname := "INFO", filename := "utils/utils.py",
    lineno := 3, msg := "m", args := none }

def entryW : QueuedEntry :=
  { level_str := "INFO", level_value := 20, message := "m", frame := none,
    now := "2024-01-01T00:00:00" }

/-- Witness for C8 at a record with no `args` and an entry with no frame. -/
theorem claim_c8_witness :
    (LoggerFormatter.format "T" ⟨true, true, true, true, true⟩ recW =
        LoggerFormatter.format "T" ⟨true, true, true, true, true⟩
          { recW with args := some emptyArgs }) ∧
      ((mkRecordOfEntry "default" entryW).filename = "unknown" ∧
        (mkRecordOfEntry "default" entryW).lineno = 0) :=
  ⟨(claim_c8_formatter_total "T" ⟨true, true, true, true, true⟩ recW).2.1 rfl,
    (claim_c8_formatter_total "T" ⟨true, true, true, true, true⟩ recW).2.2.2
      "default" entryW rfl⟩

/-- Every cleaned argv is an order-preserving subsequence of the present
(non-`None`) elements. -/
lemma clean_command_sublist (l : List (Option String)) :
    (clean_command l).Sublist (l.filterMap id) := by
  induction l with
  | nil => simp [clean_command]
  | cons x t ih =>
    cases x with
    | none => simpa [clean_command, List.filterMap_cons] using ih
    | some s =>
      by_cases hs : s.length > 0
      · simpa [clean_command, List.filterMap_cons, hs] using ih
      · simp only [clean_command, List.filterMap_cons, if_neg hs]
        exact (ih).cons s

/-- C4: for every pipeline, each stage spawned by `run_command` receives the
`clean_command`-filtered argv, in which no element is empty and no element is
absent, the relative order of the remaining elements being preserved
(subsequence of the present elements); in particular the argv
`["cmd", "", "--flag", <absent>]` is spawned as `["cmd", "--flag"]`. -/
theorem claim_c4_clean_argv (stages : List (List (Option String))) :
    (∀ argv ∈ stages.map clean_command, ∀ a ∈ argv, a ≠ "") ∧
      (∀ stage ∈ stages, (clean_command stage).Sublist (stage.filterMap id)) ∧
      clean_command [some "cmd", some "", some "--flag", none] =
        ["cmd", "--flag"] := by
  refine ⟨?_, fun stage _ => clean_command_sublist stage, by decide⟩
  intro argv hargv a ha
  obtain ⟨stage, _, rfl⟩ := List.mem_map.mp hargv
  obtain ⟨x, _, hx⟩ := List.mem_filterMap.mp ha
  cases x with
  | none => simp at hx
  | some s =>
    by_cases hs : s.length > 0
    · simp only [if_pos hs] at hx
      cases hx
      intro hempty
      rw [hempty] at hs
      simp at hs
    · simp [if_neg hs] at hx

/-- Witness for C4 at the concrete stage list of the claim. -/
theorem claim_c4_witness :
    "cmd" ≠ "" ∧
      (clean_command [some "cmd", some "", some "--flag", none]).Sublist
        ([some "cmd", some "", some "--flag", none].filterMap id) :=
  ⟨(claim_c4_clean_argv [[some "cmd", some "", some "--flag", none]]).1
      (clean_command [some "cmd", some "", some "--flag", none]) (by decide)
      "cmd" (by decide),
    (claim_c4_clean_argv [[some "cmd", some "", some "--flag", none]]).2.1
      [some "cmd", some "", some "--flag", none] (by decide)⟩

/-- After stdout reaches end of stream the loop accumulates nothing more
into `stdout`. -/
lemma drainErrOnly_fst (f : Option (String → String → Option β)) :
    ∀ errs : List String, (drainErrOnly f errs).1 = "" := by
  intro errs
  induction errs with
  | nil => rfl
  | cons e es ih => by_cases he : e = "" <;> simp [drainErrOnly, he, ih]

/-- After stdout reaches end of stream the loop still accumulates the whole
of stderr. -/
lemma drainErrOnly_snd (f : Option (String → String → Option β)) :
    ∀ errs : List String, (∀ l ∈ errs, l ≠ "") →
      (drainErrOnly f errs).2.1 = concatLines errs := by
  intro errs
  induction errs with
  | nil => intro _; rfl
  | cons e es ih =>
    intro h
    have he : e ≠ "" := h e (List.mem_cons_self e es)
    simp [drainErrOnly, he, concatLines, ih fun l hl => h l (List.mem_cons_of_mem e hl)]

/-- The drain loop reads both streams to completion: the accumulated texts
are the concatenations of all delivered lines (`readline` yields the empty
string only at end of stream, so every delivered line is nonempty). -/
lemma drainLoop_texts (f : Option (String → String → Option β)) :
    ∀ outs errs : List String, (∀ l ∈ outs, l ≠ "") → (∀ l ∈ errs, l ≠ "") →
      (drainLoop f outs errs).1 = concatLines outs ∧
        (drainLoop f outs errs).2.1 = concatLines errs := by
  intro outs
  induction outs with
  | nil =>
    intro errs _ h2
    exact ⟨drainErrOnly_fst f errs, drainErrOnly_snd f errs h2⟩
  | cons o os ih =>
    intro errs h1 h2
    have ho : o ≠ "" := h1 o (List.mem_cons_self o os)
    have h1' : ∀ l ∈ os, l ≠ "" := fun l hl => h1 l (List.mem_cons_of_mem o hl)
    cases errs with
    | nil =>
      obtain ⟨io, ie⟩ := ih [] h1' (by intro l hl; cases hl)
      simp [drainLoop, ho, concatLines, io, ie]
    | cons e es =>
      have he : e ≠ "" := h2 e (List.mem_cons_self e es)
      obtain ⟨io, ie⟩ := ih es h1' fun l hl => h2 l (List.mem_cons_of_mem e hl)
      simp [drainLoop, ho, concatLines, io, ie]

/-- C2: for every exit code and every pair of fully delivered streams, the
result of `run_command` is produced (a non-zero exit code is reported, not
raised), its `success` field is `true` exactly when the exit code is `0`,
and it carries the exit code and the full text of both streams. -/
theorem claim_c2_success_iff_exit_zero (returncode : ℤ) (outs errs : List String)
    (lcb : Option (String → String → Option β))
    (cb : Option (String → String → γ))
    (h1 : ∀ l ∈ outs, l ≠ "") (h2 : ∀ l ∈ errs, l ≠ "") :
    ((run_command returncode outs errs lcb cb).success = true ↔ returncode = 0) ∧
      (run_command returncode outs errs lcb cb).code = returncode ∧
      (run_command returncode outs errs lcb cb).stdout = concatLines outs ∧
      (run_command returncode outs errs lcb cb).stderr = concatLines errs := by
  obtain ⟨ho, he⟩ := drainLoop_texts lcb outs errs h1 h2
  refine ⟨?_, rfl, ho, he⟩
  simp [run_command, CommandResult.init]

/-- Witness for C2 on a failing run (exit code 2) delivering one stdout line. -/
theorem claim_c2_witness :
    ((run_command 2 ["a\n"] [] (none : Option (String → String → Option Unit))
            (none : Option (String → String → Unit))).success = true ↔
        (2 : ℤ) = 0) ∧
      (run_command 2 ["a\n"] [] (none : Option (String → String → Option Unit))
          (none : Option (String → String → Unit))).code = 2 ∧
      (run_command 2 ["a\n"] [] (none : Option (String → String → Option Unit))
          (none : Option (String → String → Unit))).stdout = concatLines ["a\n"] ∧
      (run_command 2 ["a\n"] [] (none : Option (String → String → Option Unit))
          (none : Option (String → String → Unit))).stderr = concatLines [] :=
  claim_c2_success_iff_exit_zero 2 ["a\n"] [] none none (by decide) (by decide)

/-- C3 (counterexample): a process emitting 5 stdout lines and 3 stderr
lines with a per-line callback that never returns `None` yields a callback
output sequence of length 5, not 8 — the loop invokes the callback once per
iteration with the pair of lines read in that iteration, not once per line. -/
theorem claim_c3_counterexample :
    ((run_command 0 ["a\n", "b\n", "c\n", "d\n", "e\n"] ["x\n", "y\n", "z\n"]
          (some (fun l e => some (l, e)))
          (none : Option (String → String → Unit))).line_callback_output).length
      ≠ 8 := by decide

/-- C3 (amended): for a process emitting 5 stdout lines and 3 stderr lines,
the per-line callback output sequence contains exactly `max 5 3 = 5`
entries, one per drain iteration in which at least one stream yielded a
line; each entry receives that iteration's stdout line and stderr line (the
empty string once a stream is exhausted), and each stream's lines appear in
arrival order across the sequence. -/
theorem claim_c3_amended (o1 o2 o3 o4 o5 e1 e2 e3 : String)
    (g : String → String → α)
    (h1 : o1 ≠ "") (h2 : o2 ≠ "") (h3 : o3 ≠ "") (h4 : o4 ≠ "") (h5 : o5 ≠ "")
    (k1 : e1 ≠ "") (k2 : e2 ≠ "") (k3 : e3 ≠ "") :
    (run_command 0 [o1, o2, o3, o4, o5] [e1, e2, e3]
        (some (fun l er => some (g l er)))
        (none : Option (String → String → Unit))).line_callback_output =
      [some (g o1 e1), some (g o2 e2), some (g o3 e3), some (g o4 ""),
        some (g o5 "")] := by
  simp [run_command, CommandResult.init, drainLoop, drainErrOnly, pushCb,
    h1, h2, h3, h4, h5, k1, k2, k3]

/-- Witness for C3 (amended) at concrete lines. -/
theorem claim_c3_amended_witness :
    (run_command 0 ["a\n", "b\n", "c\n", "d\n", "e\n"] ["x\n", "y\n", "z\n"]
        (some (fun l er => some (l, er)))
        (none : Option (String → String → Unit))).line_callback_output =
      [some ("a\n", "x\n"), some ("b\n", "y\n"), some ("c\n", "z\n"),
        some ("d\n", ""), some ("e\n", "")] :=
  claim_c3_amended "a\n" "b\n" "c\n" "d\n" "e\n" "x\n" "y\n" "z\n"
    (fun l er => (l, er)) (by decide) (by decide) (by decide) (by decide)
    (by decide) (by decide) (by decide) (by decide)

/-- C10: the completion-callback field of every result is the one-element
tuple wrapping the completion callback's return value — `(None,)` when no
callback was given — while the per-line field is the plain list of the
per-line callback results from which the `None` entries have been removed
(an order-preserving subsequence containing exactly the non-`None` raw
entries). -/
theorem claim_c10_callback_wrapping (returncode : ℤ) (outs errs : List String)
    (lcb : Option (String → String → Option β))
    (cb : Option (String → String → γ)) :
    ((run_command returncode outs errs lcb cb).callback_output =
        Tuple1.mk (match cb with
          | none => none
          | some f =>
            some (f (drainLoop lcb outs errs).1 (drainLoop lcb outs errs).2.1))) ∧
      (cb = none →
        (run_command returncode outs errs lcb cb).callback_output =
          Tuple1.mk none) ∧
      (∀ x ∈ (run_command returncode outs errs lcb cb).line_callback_output,
        x.isSome) ∧
      ((run_command returncode outs errs lcb cb).line_callback_output).Sublist
        (drainLoop lcb outs errs).2.2 ∧
      (∀ x ∈ (drainLoop lcb outs errs).2.2, x.isSome →
        x ∈ (run_command returncode outs errs lcb cb).line_callback_output) := by
  refine ⟨rfl, ?_, ?_, ?_, ?_⟩
  · intro h; subst h; rfl
  · intro x hx
    exact (List.mem_filter.mp hx).2
  · exact List.filter_sublist _
  · intro x hx hs
    exact List.mem_filter.mpr ⟨hx, hs⟩

/-- Witness for C10: no completion callback yields `(None,)`, and a mixed
per-line result list keeps exactly its non-`None` entries. -/
theorem claim_c10_witness :
    ((run_command 0 ["a\n"] [] (some (fun l _ => if l = "a\n" then some l else none))
          (none : Option (String → String → Unit))).callback_output =
        Tuple1.mk none) ∧
      (∀ x ∈ (run_command 0 ["a\n"] []
          (some (fun l _ => if l = "a\n" then some l else none))
          (none : Option (String → String → Unit))).line_callback_output,
        x.isSome) :=
  ⟨(claim_c10_callback_wrapping 0 ["a\n"] []
        (some (fun l _ => if l = "a\n" then some l else none))
        (none : Option (String → String → Unit))).2.1 rfl,
    (claim_c10_callback_wrapping 0 ["a\n"] []
        (some (fun l _ => if l = "a\n" then some l else none))
        (none : Option (String → String → Unit))).2.2.1⟩

/-- A list that filters to a singleton is one match surrounded by
non-matches: removing that element leaves no match. -/
lemma filter_erase_of_filter_singleton {p : Task → Bool} {l : List Task}
    {t : Task} (hfil : l.filter p = [t]) : (l.erase t).filter p = [] := by
  have ht_mem : t ∈ l := List.mem_of_mem_filter (hfil ▸ List.mem_cons_self t [])
  obtain ⟨l1, l2, _, hdecomp, herase⟩ := List.exists_erase_eq ht_mem
  have hpt : p t = true := (List.mem_filter.mp (hfil ▸ List.mem_cons_self t [])).2
  have hsplit : l1.filter p ++ t :: l2.filter p = [t] := by
    have := hfil
    rw [hdecomp, List.filter_append, List.filter_cons, if_pos hpt] at this
    exact this
  have h1 : l1.filter p = [] := by
    cases hl1 : l1.filter p with
    | nil => rfl
    | cons a as => rw [hl1] at hsplit; simp at hsplit
  have h2 : l2.filter p = [] := by
    rw [h1] at hsplit
    simpa using hsplit
  rw [herase, List.filter_append, h1, h2]
  rfl

/-- C6: `finish` is idempotent — once a `finish` call has removed a task id
from the active set (ids are unique while active), a second `finish` with
the same id finds no match, returns without raising, changes nothing, and in
particular adds no duplicate entry to the finished set. -/
theorem claim_c6_finish_idempotent (st : LoggerState) (task_id m1 m2 : String)
    (s1 s2 : Bool)
    (huniq : (st.tasks.filter (fun t => t.id == task_id)).length ≤ 1) :
    Logger.finish (Logger.finish st task_id m1 s1) task_id m2 s2 =
      Logger.finish st task_id m1 s1 := by
  rcases hfil : st.tasks.filter (fun t => t.id == task_id) with _ | ⟨t, rest⟩
  · have h1 : Logger.finish st task_id m1 s1 = st := by
      simp [Logger.finish, hfil]
    rw [h1]
    simp [Logger.finish, hfil]
  · have hrest : rest = [] := by
      have := huniq
      rw [hfil] at this
      simpa using this
    subst hrest
    have hfil2 :
        ((st.tasks.erase t).filter (fun t' => t'.id == task_id)) = [] :=
      filter_erase_of_filter_singleton hfil
    have h1 : Logger.finish st task_id m1 s1 =
        { tasks := st.tasks.erase t
          end_tasks := st.end_tasks ++
            [{ t with result_message := m1,
                      post_fix := if m1.trim ≠ "" then " " ++ m1 else "",
                      success := s1 }]
          task_finished := true } := by
      simp [Logger.finish, hfil]
    rw [h1]
    simp [Logger.finish, hfil2]

def stW : LoggerState :=
  { tasks := [{ id := mkTaskId "deploy" 5, message := "deploy", start_time := 5 }],
    end_tasks := [], task_finished := false }

/-- Witness for C6 at a one-task state. -/
theorem claim_c6_witness :
    (stW.tasks.filter (fun t => t.id == mkTaskId "deploy" 5)).length ≤ 1 ∧
      Logger.finish (Logger.finish stW (mkTaskId "deploy" 5) "" true)
          (mkTaskId "deploy" 5) "" true =
        Logger.finish stW (mkTaskId "deploy" 5) "" true :=
  ⟨by decide,
    claim_c6_finish_idempotent stW (mkTaskId "deploy" 5) "" "" true true
      (by decide)⟩

/-- C7 (counterexample): the sequence start("a" at time 0), finish of that
id, start("a" at time 0) again — two starts with the same message and start
time, as a coarse clock can deliver — reaches a state in which the same
content-derived id is present in the active set and in the finished set at
once, refuting the claimed invariant for arbitrary call sequences. -/
theorem claim_c7_counterexample :
    mkTaskId "a" 0 ∈ activeIds (runOps [LogOp.start "a" 0,
        LogOp.finish (mkTaskId "a" 0) "" true, LogOp.start "a" 0]) ∧
      mkTaskId "a" 0 ∈ finishedIds (runOps [LogOp.start "a" 0,
        LogOp.finish (mkTaskId "a" 0) "" true, LogOp.start "a" 0]) := by
  decide

/-- Moving one active task (with unmodified id) to the end of the finished
list preserves both halves of the tracker invariant. -/
lemma inv_finish_step (tasks end_tasks : List Task) (t t' : Task)
    (hid_eq : t'.id = t.id)
    (hnd : (tasks.map (fun x => x.id)).Nodup)
    (hdisj : ∀ id ∈ tasks.map (fun x => x.id),
      id ∉ end_tasks.map (fun x => x.id))
    (ht_mem : t ∈ tasks) :
    ((tasks.erase t).map (fun x => x.id)).Nodup ∧
      ∀ id ∈ (tasks.erase t).map (fun x => x.id),
        id ∉ (end_tasks ++ [t']).map (fun x => x.id) := by
  obtain ⟨l1, l2, _, hdecomp, herase⟩ := List.exists_erase_eq ht_mem
  subst hdecomp
  rw [herase]
  rw [List.map_append, List.map_cons] at hnd
  obtain ⟨hnd1, hnd2, hdisj12⟩ := List.nodup_append.mp hnd
  constructor
  · rw [List.map_append]
    refine List.nodup_append.mpr ⟨hnd1, (List.nodup_cons.mp hnd2).2, ?_⟩
    intro a ha hmem
    exact hdisj12 ha (List.mem_cons_of_mem _ hmem)
  · intro id hid hmem
    rw [List.map_append, List.mem_append] at hid
    rw [List.map_append, List.mem_append] at hmem
    have hid_old : id ∈ (l1 ++ t :: l2).map (fun x => x.id) := by
      rw [List.map_append, List.map_cons, List.mem_append]
      rcases hid with h | h
      · exact Or.inl h
      · exact Or.inr (List.mem_cons_of_mem _ h)
    have hne : id ≠ t.id := by
      intro hEq
      subst hEq
      rcases hid with h | h
      · exact hdisj12 h (List.mem_cons_self _ _)
      · exact (List.nodup_cons.mp hnd2).1 h
    rcases hmem with hmem | hmem
    · exact hdisj id hid_old hmem
    · rw [List.map_singleton, List.mem_singleton, hid_eq] at hmem
      exact hne hmem

/-- One tracker call preserves the invariant, provided a `start` does not
reuse an id that is still tracked. -/
lemma trackInv_applyOp (st : LoggerState) (op : LogOp) (hinv : TrackInv st)
    (hfresh : match op with
      | LogOp.start m t =>
        mkTaskId m t ∉ activeIds st ∧ mkTaskId m t ∉ finishedIds st
      | LogOp.finish _ _ _ => True) :
    TrackInv (applyOp st op) := by
  obtain ⟨hnd, hdisj⟩ := hinv
  cases op with
  | start m t =>
    obtain ⟨hf1, hf2⟩ := hfresh
    have hact : activeIds (applyOp st (LogOp.start m t)) =
        activeIds st ++ [mkTaskId m t] := by
      simp [applyOp, Logger.start, activeIds]
    have hfin : finishedIds (applyOp st (LogOp.start m t)) = finishedIds st := rfl
    constructor
    · rw [hact]
      refine List.nodup_append.mpr ⟨hnd, List.nodup_singleton _, ?_⟩
      intro a ha hmem
      rw [List.mem_singleton] at hmem
      subst hmem
      exact hf1 ha
    · intro id hid
      rw [hact, List.mem_append] at hid
      rw [hfin]
      rcases hid with hid | hid
      · exact hdisj id hid
      · rw [List.mem_singleton] at hid
        subst hid
        exact hf2
  | finish tid m s =>
    show TrackInv (Logger.finish st tid m s)
    rw [Logger.finish]
    rcases hfil : st.tasks.filter (fun x => x.id == tid) with _ | ⟨t, rest⟩
    · rw [hfil]
      exact ⟨hnd, hdisj⟩
    · rw [hfil]
      have ht_mem : t ∈ st.tasks :=
        List.mem_of_mem_filter (hfil ▸ List.mem_cons_self t rest)
      exact inv_finish_step st.tasks st.end_tasks t _ rfl hnd hdisj ht_mem

/-- The invariant holds along any fresh-start call sequence. -/
lemma trackInv_runAux : ∀ (ops : List LogOp) (st : LoggerState),
    TrackInv st → FreshStarts st ops → TrackInv (ops.foldl applyOp st) := by
  intro ops
  induction ops with
  | nil => intro st h _; simpa using h
  | cons op ops ih =>
    intro st h hf
    obtain ⟨hf1, hf2⟩ := hf
    exact ih (applyOp st op) (trackInv_applyOp st op h hf1) hf2

/-- C7 (amended): in every state reachable by a sequence of `start` and
`finish` calls in which no `start` reuses the content-derived id (same
message and start time) of a task that is still active or already finished,
an id present in the active set is absent from the finished set and vice
versa; `finish` removes the task from the active list and appends it to the
finished list in the same state transition. -/
theorem claim_c7_amended (ops : List LogOp) (h : FreshStarts initState ops) :
    ∀ id, ¬(id ∈ activeIds (runOps ops) ∧ id ∈ finishedIds (runOps ops)) := by
  have hinv : TrackInv initState := by
    constructor
    · simp [activeIds, initState]
    · intro id hid
      simp [activeIds, initState] at hid
  have := trackInv_runAux ops initState hinv h
  intro id ⟨ha, hb⟩
  exact this.2 id ha hb

/-- Witness for C7 (amended) on a fresh start-finish sequence. -/
theorem claim_c7_amended_witness :
    FreshStarts initState [LogOp.start "a" 0,
        LogOp.finish (mkTaskId "a" 0) "" true] ∧
      ¬(mkTaskId "a" 0 ∈ activeIds (runOps [LogOp.start "a" 0,
            LogOp.finish (mkTaskId "a" 0) "" true]) ∧
        mkTaskId "a" 0 ∈ finishedIds (runOps [LogOp.start "a" 0,
            LogOp.finish (mkTaskId "a" 0) "" true])) := by
  have hfresh : FreshStarts initState [LogOp.start "a" 0,
      LogOp.finish (mkTaskId "a" 0) "" true] := by
    simp [FreshStarts, applyOp, activeIds, finishedIds, initState,
      Logger.start, Logger.finish]
  exact ⟨hfresh, claim_c7_amended _ hfresh (mkTaskId "a" 0)⟩

/-! String lemmas for the elapsed-time formatter. -/

lemma str_empty_append (s : String) : "" ++ s = s := by
  apply String.ext
  rw [String.data_append]
  rfl

lemma str_append_empty (s : String) : s ++ "" = s := by
  apply String.ext
  rw [String.data_append]
  exact List.append_nil _

lemma str_append_assoc (a b c : String) : a ++ (b ++ c) = (a ++ b) ++ c := by
  apply String.ext
  simp [String.data_append, List.append_assoc]

lemma rstrip_empty : rstripCommaSpace "" = "" := rfl

/-- Stripping a string ending in `"h, "` drops exactly the separator. -/
lemma rstrip_append_h (x : String) :
    rstripCommaSpace (x ++ "h, ") = x ++ "h" := by
  apply String.ext
  show (List.dropWhile stripChar (x ++ "h, ").data.reverse).reverse = (x ++ "h").data
  rw [String.data_append, List.reverse_append, String.data_append]
  show ('h' :: x.data.reverse).reverse = x.data ++ ['h']
  rw [List.reverse_cons, List.reverse_reverse]

/-- Stripping a string ending in `"min, "` drops exactly the separator. -/
lemma rstrip_append_min (x : String) :
    rstripCommaSpace (x ++ "min, ") = x ++ "min" := by
  apply String.ext
  show (List.dropWhile stripChar (x ++ "min, ").data.reverse).reverse =
    (x ++ "min").data
  rw [String.data_append, List.reverse_append, String.data_append]
  show ((['n', 'i', 'm'] ++ x.data.reverse) : List Char).reverse =
    x.data ++ ['m', 'i', 'n']
  rw [List.reverse_append, List.reverse_reverse]
  rfl

/-- Stripping a string ending in `"s, "` drops exactly the separator. -/
lemma rstrip_append_s (x : String) :
    rstripCommaSpace (x ++ "s, ") = x ++ "s" := by
  apply String.ext
  show (List.dropWhile stripChar (x ++ "s, ").data.reverse).reverse = (x ++ "s").data
  rw [String.data_append, List.reverse_append, String.data_append]
  show ('s' :: x.data.reverse).reverse = x.data ++ ['s']
  rw [List.reverse_cons, List.reverse_reverse]

/-- Stripping keeps a string ending in `"ms"`. -/
lemma rstrip_keep_ms (x : String) : rstripCommaSpace (x ++ "ms") = x ++ "ms" := by
  apply String.ext
  show (List.dropWhile stripChar (x ++ "ms").data.reverse).reverse = (x ++ "ms").data
  rw [String.data_append, List.reverse_append]
  show ((['s', 'm'] ++ x.data.reverse) : List Char).reverse = x.data ++ ['m', 's']
  rw [List.reverse_append, List.reverse_reverse]
  rfl

lemma data_h_sep : ("h, " : String).data = ['h', ',', ' '] := rfl

lemma data_min_sep : ("min, " : String).data = ['m', 'i', 'n', ',', ' '] := rfl

lemma data_s_sep : ("s, " : String).data = ['s', ',', ' '] := rfl

lemma data_h_only : ("h" : String).data = ['h'] := rfl

lemma data_min_only : ("min" : String).data = ['m', 'i', 'n'] := rfl

lemma data_s_only : ("s" : String).data = ['s'] := rfl

lemma data_ms_only : ("ms" : String).data = ['m', 's'] := rfl

lemma data_comma_sep : (", " : String).data = [',', ' '] := rfl

/-- The built-then-stripped rendering equals the `", "`-join of the non-zero
components, whichever components are present. -/
lemma assemble_join (h m s ms : ℕ) :
    rstripCommaSpace
        ((((if h > 0 then toString h ++ "h, " else "") ++
              (if m > 0 then toString m ++ "min, " else "")) ++
            (if s > 0 then toString s ++ "s, " else "")) ++
          (if ms > 0 then toString ms ++ "ms" else "")) =
      joinComps
        ((if h > 0 then [toString h ++ "h"] else []) ++
          (if m > 0 then [toString m ++ "min"] else []) ++
          (if s > 0 then [toString s ++ "s"] else []) ++
          (if ms > 0 then [toString ms ++ "ms"] else [])) := by
  by_cases hh : h > 0 <;> by_cases hm : m > 0 <;> by_cases hs2 : s > 0 <;>
    by_cases hms : ms > 0 <;>
    simp [hh, hm, hs2, hms, joinComps, str_empty_append, str_append_empty,
      str_append_assoc, rstrip_append_h, rstrip_append_min, rstrip_append_s,
      rstrip_keep_ms, rstrip_empty] <;>
    apply String.ext <;>
    simp [String.data_append, data_h_sep, data_min_sep, data_s_sep,
      data_h_only, data_min_only, data_s_only, data_ms_only, data_comma_sep]

/-- C5: the elapsed-time formatter renders 3661.5 elapsed seconds (3661500
milliseconds) as `"1h, 1min, 1s, 500ms"`, renders an elapsed time of 0 as
the empty string, and in general renders every non-negative elapsed time as
the `", "`-join of its non-zero hour/minute/second/millisecond components,
each zero-valued component omitted and no trailing separator. -/
theorem claim_c5_elapsed_format :
    format_elapsed_time 0 3661500 = "1h, 1min, 1s, 500ms" ∧
      format_elapsed_time 0 0 = "" ∧
      ∀ start_time end_time : ℕ,
        format_elapsed_time start_time end_time =
          joinComps (elapsedComponents start_time end_time) := by
  refine ⟨by decide, rfl, ?_⟩
  intro s e
  exact assemble_join ((e - s) / 3600000) ((e - s) % 3600000 / 60000)
    ((e - s) % 3600000 % 60000 / 1000) ((e - s) % 3600000 % 60000 % 1000)

end TerraformPy
